import Mathlib

/-!
Verification of the replay/record engine in src/tas/mod.rs: the Tas struct,
its cursors (playback_cursor, next_emulator_frame), the input log (data),
the snapshot cache (greenzone) and the real-time catch-up / run loops.

The repository ships src/tas/mod.rs and src/ui/piano_roll.rs; the modules
greenzone, input and core that mod.rs uses are declared but their sources
are absent, so they are modelled from the specification at the interface
boundary mod.rs uses (floor-lookup snapshot cache, opaque deterministic
engine, fixed frame size). All control flow of mod.rs itself is translated
line by line from the source.
-/

namespace Mvi

/-- Modelled from the spec: the engine state of the missing core module.
The Simulation Engine is an opaque deterministic state machine that advances
one step per input record and can serialize/restore its full state, so the
free (initial) model of that interface is the sequence of input records it
has consumed. An out-of-range input read is recorded as none. -/
abbrev CoreState := List (Option (List Nat))

/-- Modelled from the spec: the missing core module.  Holds only the opaque
engine state; video/audio output is out of scope. -/
structure Core where
  state : CoreState
  deriving DecidableEq

/-- Modelled from the spec: the engine as loaded at session start, before any
input is consumed. -/
def Core.init : Core := ⟨[]⟩

/-- Modelled from the spec: advance_one_step of the missing core module:
execute one frame given one input record. -/
def Core.run_frame (c : Core) (input : Option (List Nat)) : Core :=
  ⟨c.state ++ [input]⟩

/-- Modelled from the spec: serialize_state of the missing core module. -/
def Core.save_state (c : Core) : CoreState := c.state

/-- Modelled from the spec: restore_state of the missing core module. -/
def Core.restore_state (_c : Core) (s : CoreState) : Core := ⟨s⟩

/-- RecordMode from src/tas/mod.rs: ReadOnly, Insert(pending record),
Overwrite(pending record). -/
inductive RecordMode where
  | ReadOnly : RecordMode
  | Insert : List Nat → RecordMode
  | Overwrite : List Nat → RecordMode
  deriving DecidableEq

/-- RunMode from src/tas/mod.rs: Running { stop_at, record_mode } or Paused. -/
inductive RunMode where
  | Running : Option Nat → RecordMode → RunMode
  | Paused : RunMode
  deriving DecidableEq

/-- Modelled from the spec: the missing greenzone module (Snapshot Cache), a
mapping from frame index to a full engine snapshot.  Represented as an
association list; the bounded-capacity eviction policy of the spec is left
unmodelled because its parameters are unspecified and no claim depends on
eviction. -/
structure Greenzone where
  entries : List (Nat × CoreState)
  deriving DecidableEq

/-- Modelled from the spec: the cache is created seeded with the frame-0
snapshot (the initial state, before any input is consumed). -/
def Greenzone.new (s : CoreState) : Greenzone := ⟨[(0, s)]⟩

/-- Modelled from the spec: save(frame_index, snapshot) inserts or replaces
the snapshot for frame_index. -/
def Greenzone.save (gz : Greenzone) (f : Nat) (s : CoreState) : Greenzone :=
  ⟨(f, s) :: gz.entries.filter (fun e => ! (e.1 == f))⟩

/-- Modelled from the spec: invalidate(after) removes every stored entry with
index strictly greater than after. -/
def Greenzone.invalidate (gz : Greenzone) (after : Nat) : Greenzone :=
  ⟨gz.entries.filter (fun e => decide (e.1 ≤ after))⟩

/-- Modelled from the spec: covers(frame_index) is true iff an exact snapshot
is stored at that index. -/
def Greenzone.covers (gz : Greenzone) (f : Nat) : Bool :=
  gz.entries.any (fun e => e.1 == f)

/-- Helper for the floor lookup: the entry with the largest frame index among
e and l. -/
def maxEntry (e : Nat × CoreState) (l : List (Nat × CoreState)) : Nat × CoreState :=
  l.foldl (fun best x => if best.1 < x.1 then x else best) e

/-- Modelled from the spec: restore(frame_index) returns the snapshot for the
largest stored index at most frame_index, together with that index (a floor
lookup).  The frame-0 entry always exists in reachable states; on an empty
cache the model totalizes with the pre-input state. -/
def Greenzone.restore (gz : Greenzone) (f : Nat) : Nat × CoreState :=
  match gz.entries.filter (fun e => decide (e.1 ≤ f)) with
  | [] => (0, [])
  | e :: es => maxEntry e es

/-- The Tas struct of src/tas/mod.rs.  Instant-typed wall-clock fields are
replaced by passing each tick its elapsed guest-frame budget directly (the
only use of the clock is the product elapsed seconds times fps); the f32
fraction is modelled as a rational.  The input_port collaborator (missing
input module) is reduced to its frame_size, the only datum mod.rs reads
from it besides the default record supplied at construction. -/
structure Tas where
  playback_cursor : Nat
  next_emulator_frame : Nat
  run_mode : RunMode
  core_frame_fraction : ℚ
  greenzone : Greenzone
  selected_frame : Nat
  selection_locked : Bool
  frame_size : Nat
  core : Core
  data : List Nat
  deriving DecidableEq

/-- Tas::new from src/tas/mod.rs, parameterized by the frame size and default
record of the missing input module: cursors at 0, run_mode
Running { stop_at: None, record_mode: Insert(default) }, greenzone seeded
with the frame-0 save state, selection locked, log holding one default
frame. -/
def Tas.new (size : Nat) (defaultRec : List Nat) : Tas :=
  { playback_cursor := 0
    next_emulator_frame := 0
    run_mode := RunMode.Running none (RecordMode.Insert defaultRec)
    core_frame_fraction := 0
    greenzone := Greenzone.new Core.init.save_state
    selected_frame := 0
    selection_locked := true
    frame_size := size
    core := Core.init
    data := defaultRec }

/-- Tas::movie_len: data length divided by the frame size. -/
def Tas.movie_len (t : Tas) : Nat := t.data.length / t.frame_size

/-- The input record at a given frame index, as Tas::frame reads it
(data[idx*size..][..size]); none when the read is out of range.  Modelled
from the spec for the engine input path: the missing core module polls the
record at the frame being simulated. -/
def Tas.frameBytes (t : Tas) (idx : Nat) : Option (List Nat) :=
  if (idx + 1) * t.frame_size ≤ t.data.length then
    some ((t.data.drop (idx * t.frame_size)).take t.frame_size)
  else none

/-- Tas::run_guest_frame: run the core one frame on the input at
next_emulator_frame, increment next_emulator_frame, save the new state into
the greenzone at the incremented index, then, if playback_cursor is behind
next_emulator_frame - 1, advance it (and selected_frame when the selection
is locked) by the deficit. -/
def Tas.run_guest_frame (t : Tas) : Tas :=
  let core := t.core.run_frame (t.frameBytes t.next_emulator_frame)
  let next := t.next_emulator_frame + 1
  let gz := t.greenzone.save next core.save_state
  if t.playback_cursor < next - 1 then
    { t with
      core := core
      next_emulator_frame := next
      greenzone := gz
      playback_cursor := t.playback_cursor + (next - t.playback_cursor - 1)
      selected_frame :=
        if t.selection_locked then
          t.selected_frame + (next - t.playback_cursor - 1)
        else t.selected_frame }
  else
    { t with
      core := core
      next_emulator_frame := next
      greenzone := gz }

/-- Tas::invalidate: invalidate the greenzone after the index; if
next_emulator_frame is ahead of it, floor-restore from the invalidated
greenzone, setting next_emulator_frame to the returned index and restoring
the core to the returned snapshot. -/
def Tas.invalidate (t : Tas) (after : Nat) : Tas :=
  if after < t.next_emulator_frame then
    { t with
      greenzone := t.greenzone.invalidate after
      next_emulator_frame := ((t.greenzone.invalidate after).restore after).1
      core := t.core.restore_state ((t.greenzone.invalidate after).restore after).2 }
  else { t with greenzone := t.greenzone.invalidate after }

/-- Tas::frame_mut followed by the callers copy_from_slice: invalidate at the
index first, then write the record bytes in place.  An out-of-range index or
a buffer whose length is not the frame size aborts (Rust slice panic) after
the invalidation, carried here as the error state. -/
def Tas.overwrite (t : Tas) (idx : Nat) (buf : List Nat) : Except Tas Tas :=
  if (idx + 1) * (t.invalidate idx).frame_size ≤ (t.invalidate idx).data.length then
    if buf.length = (t.invalidate idx).frame_size then
      Except.ok { t.invalidate idx with
        data := (t.invalidate idx).data.take (idx * (t.invalidate idx).frame_size)
          ++ buf
          ++ (t.invalidate idx).data.drop
              (idx * (t.invalidate idx).frame_size + (t.invalidate idx).frame_size) }
    else Except.error (t.invalidate idx)
  else Except.error (t.invalidate idx)

/-- Tas::insert: assert the buffer length is a multiple of the frame size
(abort before any mutation otherwise), invalidate at the index, then splice
the buffer in at idx * frame_size (Rust Vec::splice panics when that
position is past the end, carried here as the error state). -/
def Tas.insert (t : Tas) (idx : Nat) (buf : List Nat) : Except Tas Tas :=
  if buf.length % t.frame_size ≠ 0 then Except.error t
  else
    if idx * (t.invalidate idx).frame_size ≤ (t.invalidate idx).data.length then
      Except.ok { t.invalidate idx with
        data := (t.invalidate idx).data.take (idx * (t.invalidate idx).frame_size)
          ++ buf
          ++ (t.invalidate idx).data.drop (idx * (t.invalidate idx).frame_size) }
    else Except.error (t.invalidate idx)

/-- Tas::seek_to: set playback_cursor to the frame, floor-restore from the
greenzone, set next_emulator_frame to the returned index and restore the
core to the returned snapshot. -/
def Tas.seek_to (t : Tas) (frame : Nat) : Tas :=
  { t with
    playback_cursor := frame
    next_emulator_frame := (t.greenzone.restore frame).1
    core := t.core.restore_state (t.greenzone.restore frame).2 }

/-- Tas::set_run_mode: plain assignment. -/
def Tas.set_run_mode (t : Tas) (mode : RunMode) : Tas :=
  { t with run_mode := mode }

/-- Tas::toggle_playback: Paused becomes Running { stop_at: None, ReadOnly };
Running becomes Paused. -/
def Tas.toggle_playback (t : Tas) : Tas :=
  { t with run_mode :=
      match t.run_mode with
      | RunMode.Paused => RunMode.Running none RecordMode.ReadOnly
      | RunMode.Running _ _ => RunMode.Paused }

/-- Tas::select_next: clamp the delta to the last frame, advance
selected_frame, seek the view by the same delta when the selection is
locked, and pause. -/
def Tas.select_next (t : Tas) (n : Nat) : Tas :=
  let m := min n (t.movie_len - (t.selected_frame + 1))
  let t1 := { t with selected_frame := t.selected_frame + m }
  let t2 := if t1.selection_locked then t1.seek_to (t1.playback_cursor + m) else t1
  { t2 with run_mode := RunMode.Paused }

/-- Tas::select_prev: clamp the delta to frame 0, move selected_frame back,
seek the view by the same (saturating) delta when the selection is locked,
and pause. -/
def Tas.select_prev (t : Tas) (n : Nat) : Tas :=
  let m := min n t.selected_frame
  let t1 := { t with selected_frame := t.selected_frame - m }
  let t2 := if t1.selection_locked then t1.seek_to (t1.playback_cursor - m) else t1
  { t2 with run_mode := RunMode.Paused }

/-- Rust f32::clamp(0., 2.) as run_host_frame applies it to the frame
fraction: below 0 becomes 0, above 2 becomes 2. -/
def clampFrac (x : ℚ) : ℚ :=
  if x < 0 then 0 else if 2 < x then 2 else x

/-- The catch-up loop of Tas::run_host_frame: while playback_cursor is at or
ahead of next_emulator_frame and at least one whole guest frame of budget
remains, run one guest frame and consume one unit.  The fraction is clamped
to at most 2 before the loop, and every iteration consumes exactly 1, so
fuel 3 makes every exit happen through the loop guard. -/
def Tas.catch_up : Nat → Tas → Tas
  | 0, t => t
  | fuel + 1, t =>
    if t.next_emulator_frame ≤ t.playback_cursor ∧ 1 ≤ t.core_frame_fraction then
      Tas.catch_up fuel
        { t.run_guest_frame with core_frame_fraction := t.core_frame_fraction - 1 }
    else t

/-- One record-mode action of the run loop of Tas::run_host_frame: ReadOnly
mutates nothing; Insert asserts the pending record has the frame size then
inserts it at playback_cursor + 1; Overwrite asserts likewise then
overwrites the record at playback_cursor + 1.  Assertion failures are error
states. -/
def Tas.record_step (t : Tas) (rm : RecordMode) : Except Tas Tas :=
  match rm with
  | RecordMode.ReadOnly => Except.ok t
  | RecordMode.Insert d =>
    if d.length = t.frame_size then t.insert (t.playback_cursor + 1) d
    else Except.error t
  | RecordMode.Overwrite d =>
    if d.length = t.frame_size then t.overwrite (t.playback_cursor + 1) d
    else Except.error t

/-- Whether the stop_at bound has been reached by the playback cursor. -/
def stopHit (stop : Option Nat) (cursor : Nat) : Bool :=
  match stop with
  | some s => decide (s ≤ cursor)
  | none => false

/-- The run loop of Tas::run_host_frame: while at least one whole guest frame
of budget remains, either break on the stop_at bound (setting run_mode to
Paused, the in-loop assignment of the source), or perform the record-mode
action, assert next_emulator_frame equals playback_cursor + 1, run one guest
frame and consume one unit.  Assertion failures propagate as error states
(the source restore of run_mode never runs on a panic). -/
def Tas.run_loop : Nat → Option Nat → RecordMode → Tas → Except Tas Tas
  | 0, _, _, t => Except.ok t
  | fuel + 1, stop, rm, t =>
    if 1 ≤ t.core_frame_fraction then
      if stopHit stop t.playback_cursor then
        Except.ok { t with run_mode := RunMode.Paused }
      else
        match t.record_step rm with
        | Except.error t1 => Except.error t1
        | Except.ok t1 =>
          if t1.next_emulator_frame = t1.playback_cursor + 1 then
            Tas.run_loop fuel stop rm
              { t1.run_guest_frame with
                core_frame_fraction := t1.core_frame_fraction - 1 }
          else Except.error t1
    else Except.ok t

/-- The body of Tas::run_host_frame after the frame fraction has been
accumulated and clamped: catch up, return early when less than one whole
frame of budget remains, otherwise take the run mode out (leaving Paused in
its place, the mem::replace of the source), run the run loop when Running,
and finally write the taken run mode back unconditionally — the source
restores the original mode even when the loop paused on stop_at. -/
def Tas.host_body (t : Tas) : Except Tas Tas :=
  let t1 := Tas.catch_up 3 t
  if t1.core_frame_fraction < 1 then Except.ok t1
  else
    match t1.run_mode with
    | RunMode.Paused => Except.ok t1
    | RunMode.Running stop rm =>
      match Tas.run_loop 3 stop rm { t1 with run_mode := RunMode.Paused } with
      | Except.ok t2 => Except.ok { t2 with run_mode := RunMode.Running stop rm }
      | Except.error t2 => Except.error t2

/-- Tas::run_host_frame, parameterized by the elapsed guest-frame budget of
this tick (elapsed host seconds times the core fps, the only use the source
makes of the wall clock): accumulate it into the frame fraction, clamp the
fraction to at most 2 whole frames, then run the catch-up and run phases. -/
def Tas.run_host_frame (t : Tas) (elapsed : ℚ) : Except Tas Tas :=
  Tas.host_body
    { t with core_frame_fraction := clampFrac (t.core_frame_fraction + elapsed) }

/-- The state a fallible operation leaves behind: the new state on success,
the state at the abort on a panic. -/
def Tas.resultState (r : Except Tas Tas) : Tas :=
  match r with
  | Except.ok t => t
  | Except.error t => t

/-! ### Properties of the floor lookup and invalidation of the snapshot cache -/

theorem maxEntry_mem (e : Nat × CoreState) (l : List (Nat × CoreState)) :
    maxEntry e l ∈ e :: l := by
  induction l generalizing e with
  | nil => simp [maxEntry]
  | cons x xs ih =>
    have h := ih (if e.1 < x.1 then x else e)
    simp only [maxEntry, List.foldl_cons] at h ⊢
    rcases List.mem_cons.mp h with h1 | h1
    · rw [h1]
      split
      · exact List.mem_cons_of_mem _ (List.mem_cons_self _ _)
      · exact List.mem_cons_self _ _
    · exact List.mem_cons_of_mem _ (List.mem_cons_of_mem _ h1)

theorem maxEntry_le (e : Nat × CoreState) (l : List (Nat × CoreState)) :
    ∀ y ∈ e :: l, y.1 ≤ (maxEntry e l).1 := by
  induction l generalizing e with
  | nil =>
    intro y hy
    rcases List.mem_cons.mp hy with h | h
    · rw [h]; simp [maxEntry]
    · cases h
  | cons x xs ih =>
    intro y hy
    have hkey : e.1 ≤ (if e.1 < x.1 then x else e).1
        ∧ x.1 ≤ (if e.1 < x.1 then x else e).1 := by
      split <;> omega
    have hstep := ih (if e.1 < x.1 then x else e)
    simp only [maxEntry, List.foldl_cons] at hstep ⊢
    rcases List.mem_cons.mp hy with h | h
    · rw [h]
      exact le_trans hkey.1 (hstep _ (List.mem_cons_self _ _))
    rcases List.mem_cons.mp h with h2 | h2
    · rw [h2]
      exact le_trans hkey.2 (hstep _ (List.mem_cons_self _ _))
    · exact hstep _ (List.mem_cons_of_mem _ h2)

/-- The floor lookup never returns an index greater than the request. -/
theorem Greenzone.restore_fst_le (gz : Greenzone) (f : Nat) :
    (gz.restore f).1 ≤ f := by
  rw [Greenzone.restore]
  split
  · exact Nat.zero_le f
  · next e es heq =>
    have hmem := maxEntry_mem e es
    rw [← heq] at hmem
    have hf := List.mem_filter.mp hmem
    simpa using hf.2

/-- When the frame-0 entry is present, the floor lookup returns a stored
entry. -/
theorem Greenzone.restore_mem (gz : Greenzone) (f : Nat) (h : gz.covers 0 = true) :
    gz.restore f ∈ gz.entries := by
  rw [Greenzone.restore]
  split
  · next heq =>
    exfalso
    rw [Greenzone.covers, List.any_eq_true] at h
    obtain ⟨e, he, hbeq⟩ := h
    have he1 : e.1 = 0 := by simpa using hbeq
    have hfil : e ∈ gz.entries.filter (fun x => decide (x.1 ≤ f)) :=
      List.mem_filter.mpr ⟨he, by simp [he1]⟩
    rw [heq] at hfil
    cases hfil
  · next e es heq =>
    have hmem := maxEntry_mem e es
    rw [← heq] at hmem
    exact (List.mem_filter.mp hmem).1

/-- The floor lookup result dominates every stored entry at or below the
requested frame. -/
theorem Greenzone.restore_max (gz : Greenzone) (f : Nat) (e : Nat × CoreState)
    (hmem : e ∈ gz.entries) (hle : e.1 ≤ f) : e.1 ≤ (gz.restore f).1 := by
  rw [Greenzone.restore]
  have hf : e ∈ gz.entries.filter (fun x => decide (x.1 ≤ f)) :=
    List.mem_filter.mpr ⟨hmem, by simpa using hle⟩
  split
  · next heq => rw [heq] at hf; cases hf
  · next x xs heq =>
    rw [heq] at hf
    exact maxEntry_le x xs e hf

/-- Cache invalidation removes exactly the entries above the cut: no frame
strictly beyond it stays covered. -/
theorem Greenzone.invalidate_covers (gz : Greenzone) (i j : Nat) (h : i < j) :
    (gz.invalidate i).covers j = false := by
  rw [← Bool.not_eq_true]
  intro hcon
  rw [Greenzone.covers, List.any_eq_true] at hcon
  obtain ⟨e, he, hbeq⟩ := hcon
  simp only [Greenzone.invalidate] at he
  replace he := List.mem_filter.mp he
  have h1 : e.1 ≤ i := by simpa using he.2
  have h2 : e.1 = j := by simpa using hbeq
  omega

/-- Cache invalidation keeps the frame-0 entry. -/
theorem Greenzone.invalidate_covers_zero (gz : Greenzone) (i : Nat)
    (h : gz.covers 0 = true) : (gz.invalidate i).covers 0 = true := by
  rw [Greenzone.covers, List.any_eq_true] at h ⊢
  obtain ⟨e, he, hbeq⟩ := h
  have he1 : e.1 = 0 := by simpa using hbeq
  refine ⟨e, ?_, hbeq⟩
  simp only [Greenzone.invalidate]
  exact List.mem_filter.mpr ⟨he, by simp [he1]⟩

/-! ### Controller-level invalidation facts -/

theorem Tas.invalidate_greenzone (t : Tas) (i : Nat) :
    (t.invalidate i).greenzone = t.greenzone.invalidate i := by
  rw [Tas.invalidate]; split <;> rfl

theorem Tas.invalidate_data (t : Tas) (i : Nat) :
    (t.invalidate i).data = t.data := by
  rw [Tas.invalidate]; split <;> rfl

theorem Tas.invalidate_frame_size (t : Tas) (i : Nat) :
    (t.invalidate i).frame_size = t.frame_size := by
  rw [Tas.invalidate]; split <;> rfl

theorem Tas.invalidate_playback (t : Tas) (i : Nat) :
    (t.invalidate i).playback_cursor = t.playback_cursor := by
  rw [Tas.invalidate]; split <;> rfl

/-- Whatever the outcome, an overwrite leaves the greenzone invalidated at the
edited index: the invalidation precedes the data write and the aborts. -/
theorem Tas.overwrite_state_greenzone (t : Tas) (i : Nat) (b : List Nat) :
    (Tas.resultState (t.overwrite i b)).greenzone = t.greenzone.invalidate i := by
  simp only [Tas.overwrite]
  split
  · split <;> simp [Tas.resultState, Tas.invalidate_greenzone]
  · simp [Tas.resultState, Tas.invalidate_greenzone]

/-- Once its length assertion passes, an insert leaves the greenzone
invalidated at the edited index whatever the outcome. -/
theorem Tas.insert_state_greenzone (t : Tas) (i : Nat) (b : List Nat)
    (h : b.length % t.frame_size = 0) :
    (Tas.resultState (t.insert i b)).greenzone = t.greenzone.invalidate i := by
  rw [Tas.insert, if_neg (by omega)]
  split <;> simp [Tas.resultState, Tas.invalidate_greenzone]

/-- C3: for every index i, an overwrite of record i (frame_mut followed by
the in-place write) and an insert at i each invalidate all cache entries
with frame index strictly greater than i before mutating the log bytes, so
afterwards covers(j) is false for every j greater than i (for insert, once
its length assertion has passed, since that assertion precedes the
invalidation). -/
theorem frame_edits_invalidate_above (t : Tas) (i j : Nat) (b : List Nat)
    (hij : i < j) :
    (Tas.resultState (t.overwrite i b)).greenzone.covers j = false
    ∧ (b.length % t.frame_size = 0 →
        (Tas.resultState (t.insert i b)).greenzone.covers j = false) := by
  constructor
  · rw [Tas.overwrite_state_greenzone]
    exact Greenzone.invalidate_covers _ _ _ hij
  · intro hb
    rw [Tas.insert_state_greenzone t i b hb]
    exact Greenzone.invalidate_covers _ _ _ hij

/-- A session state with a ten-frame log and a cached snapshot at frame 5. -/
def tC3 : Tas := { Tas.new 1 [0] with
  data := List.replicate 10 0
  greenzone := ⟨[(0, []), (5, [some [0]])]⟩ }

/-- Witness for C3 at a concrete state: frame 5 was covered, and after an
overwrite at 1 and an insert at 1 it is covered no more. -/
theorem frame_edits_invalidate_above_witness :
    tC3.greenzone.covers 5 = true
    ∧ (Tas.resultState (tC3.overwrite 1 [7])).greenzone.covers 5 = false
    ∧ (Tas.resultState (tC3.insert 1 [7])).greenzone.covers 5 = false := by
  refine ⟨by decide, ?_, ?_⟩
  · exact (frame_edits_invalidate_above tC3 1 5 [7] (by decide)).1
  · exact (frame_edits_invalidate_above tC3 1 5 [7] (by decide)).2 (by decide)

/-- C4: invalidate(frame_index) with the engine ahead of the point rolls the
engine back to the nearest remaining snapshot at or before the point — the
new next_emulator_frame is at most the point, the pair of the new
next_emulator_frame and restored engine state is a remaining cache entry,
and no remaining entry at or below the point lies above it — leaving the
playback cursor alone; with the engine not ahead, only the greenzone
changes. -/
theorem invalidate_rollback (t : Tas) (i : Nat) :
    (t.next_emulator_frame ≤ i →
      t.invalidate i = { t with greenzone := t.greenzone.invalidate i })
    ∧ (i < t.next_emulator_frame → t.greenzone.covers 0 = true →
        (t.invalidate i).next_emulator_frame ≤ i
        ∧ ((t.invalidate i).next_emulator_frame, (t.invalidate i).core.state)
            ∈ (t.greenzone.invalidate i).entries
        ∧ (∀ e ∈ (t.greenzone.invalidate i).entries,
            e.1 ≤ i → e.1 ≤ (t.invalidate i).next_emulator_frame)
        ∧ (t.invalidate i).playback_cursor = t.playback_cursor) := by
  constructor
  · intro h
    rw [Tas.invalidate, if_neg (by omega)]
  · intro h hc
    have hgz0 : (t.greenzone.invalidate i).covers 0 = true :=
      Greenzone.invalidate_covers_zero t.greenzone i hc
    have hnext : (t.invalidate i).next_emulator_frame
        = ((t.greenzone.invalidate i).restore i).1 := by
      rw [Tas.invalidate, if_pos h]
    have hcore : (t.invalidate i).core.state
        = ((t.greenzone.invalidate i).restore i).2 := by
      rw [Tas.invalidate, if_pos h]
      rfl
    refine ⟨?_, ?_, ?_, ?_⟩
    · rw [hnext]; exact Greenzone.restore_fst_le _ _
    · rw [hnext, hcore, Prod.mk.eta]
      exact Greenzone.restore_mem _ i hgz0
    · intro e he hei
      rw [hnext]
      exact Greenzone.restore_max _ i e he hei
    · rw [Tas.invalidate, if_pos h]

/-- A session state whose engine is at frame 6 with snapshots cached at
frames 0 and 3. -/
def tC4 : Tas := { Tas.new 1 [0] with
  data := List.replicate 10 0
  next_emulator_frame := 6
  greenzone := ⟨[(0, []), (3, [some [0], some [0], some [0]])]⟩ }

/-- Witness for C4 at a concrete state: invalidating at 4 with the engine at
6 rolls next_emulator_frame back onto a remaining cache entry at or below 4
without moving the playback cursor. -/
theorem invalidate_rollback_witness :
    4 < tC4.next_emulator_frame
    ∧ tC4.greenzone.covers 0 = true
    ∧ (tC4.invalidate 4).next_emulator_frame ≤ 4
    ∧ ((tC4.invalidate 4).next_emulator_frame, (tC4.invalidate 4).core.state)
        ∈ (tC4.greenzone.invalidate 4).entries
    ∧ (tC4.invalidate 4).playback_cursor = tC4.playback_cursor := by
  have h := (invalidate_rollback tC4 4).2 (by decide) (by decide)
  exact ⟨by decide, by decide, h.1, h.2.1, h.2.2.2⟩

/-- C6 counterexample: at the concrete input i = 5 on a one-frame log with
an aligned one-record buffer, insert does not insert and the log does not
grow by one record — the call aborts (Vec::splice index out of range), so
the claim as stated, quantified over every index i, is false. -/
theorem insert_contract_counterexample :
    ([9] : List Nat).length % (Tas.new 1 [0]).frame_size = 0
    ∧ (Tas.new 1 [0]).insert 5 [9]
        = Except.error ((Tas.new 1 [0]).invalidate 5)
    ∧ ¬ (Tas.resultState ((Tas.new 1 [0]).insert 5 [9])).movie_len
          = (Tas.new 1 [0]).movie_len + 1 := by
  refine ⟨by decide, by rfl, by decide⟩

/-- C6 amended: insert(i, b) requires the length of b to be a multiple of
frame_size — when it is not, it aborts loudly with neither the log nor the
cache mutated; when it is and the position i is within the log, it inserts
the len(b)/frame_size whole records at position i, shifting subsequent
records forward, so len() grows by that count; an aligned insert at a
position beyond the end of the log also aborts loudly (index out of range)
without growing the log. -/
theorem insert_contract (t : Tas) (i : Nat) (b : List Nat) :
    (b.length % t.frame_size ≠ 0 → t.insert i b = Except.error t)
    ∧ (0 < t.frame_size → b.length % t.frame_size = 0 →
        i * t.frame_size ≤ t.data.length →
        t.insert i b = Except.ok { t.invalidate i with
            data := t.data.take (i * t.frame_size) ++ b
              ++ t.data.drop (i * t.frame_size) }
        ∧ (Tas.resultState (t.insert i b)).movie_len
            = t.movie_len + b.length / t.frame_size)
    ∧ (b.length % t.frame_size = 0 → t.data.length < i * t.frame_size →
        t.insert i b = Except.error (t.invalidate i)) := by
  refine ⟨?_, ?_, ?_⟩
  · intro h
    rw [Tas.insert, if_pos h]
  · intro hpos hb hbound
    have hok : t.insert i b = Except.ok { t.invalidate i with
        data := t.data.take (i * t.frame_size) ++ b
          ++ t.data.drop (i * t.frame_size) } := by
      simp only [Tas.insert, Tas.invalidate_data, Tas.invalidate_frame_size]
      rw [if_neg (by omega), if_pos hbound]
    refine ⟨hok, ?_⟩
    rw [hok]
    simp only [Tas.resultState, Tas.movie_len]
    have hfs : ({ t.invalidate i with
        data := t.data.take (i * t.frame_size) ++ b
          ++ t.data.drop (i * t.frame_size) } : Tas).frame_size
        = t.frame_size := Tas.invalidate_frame_size t i
    rw [hfs]
    have hlen : (t.data.take (i * t.frame_size) ++ b
        ++ t.data.drop (i * t.frame_size)).length
        = t.data.length + b.length := by
      simp [List.length_take, List.length_drop]
      omega
    rw [hlen]
    exact Nat.add_div_of_dvd_left (Nat.dvd_of_mod_eq_zero hb)
  · intro hb hlt
    simp only [Tas.insert, Tas.invalidate_data, Tas.invalidate_frame_size]
    rw [if_neg (by omega), if_neg (by omega)]

/-- Witness for the amended C6 at concrete inputs: a misaligned buffer on a
two-byte-frame log aborts with the state unchanged; an aligned two-record
buffer inserted at position 1 of a one-frame log grows the log to three
frames. -/
theorem insert_contract_witness :
    (Tas.new 2 [0, 0]).insert 0 [1] = Except.error (Tas.new 2 [0, 0])
    ∧ (Tas.resultState ((Tas.new 1 [0]).insert 1 [4, 5])).movie_len
        = (Tas.new 1 [0]).movie_len + 2 := by
  constructor
  · exact (insert_contract (Tas.new 2 [0, 0]) 0 [1]).1 (by decide)
  · exact ((insert_contract (Tas.new 1 [0]) 1 [4, 5]).2.1
      (by decide) (by decide) (by decide)).2

/-- C7: seek_to is idempotent — a second seek_to to the same frame with no
intervening edits leaves the playback cursor, next_emulator_frame and the
engine state exactly as after the first. -/
theorem seek_to_idempotent (t : Tas) (f : Nat) :
    ((t.seek_to f).seek_to f).playback_cursor = (t.seek_to f).playback_cursor
    ∧ ((t.seek_to f).seek_to f).next_emulator_frame
        = (t.seek_to f).next_emulator_frame
    ∧ ((t.seek_to f).seek_to f).core = (t.seek_to f).core :=
  ⟨rfl, rfl, rfl⟩

/-- C9: frame_mut is not atomic on error — the invalidation side effect comes
first, so on an out-of-bounds index the abort state is exactly the
invalidated state: the cache above the index is gone, the engine was
possibly rolled back, and the log bytes are untouched. -/
theorem frame_mut_invalidates_before_panic (t : Tas) (i j : Nat) (b : List Nat)
    (hoob : t.data.length < (i + 1) * t.frame_size) (hij : i < j) :
    t.overwrite i b = Except.error (t.invalidate i)
    ∧ (Tas.resultState (t.overwrite i b)).greenzone.covers j = false
    ∧ (Tas.resultState (t.overwrite i b)).data = t.data := by
  have hov : t.overwrite i b = Except.error (t.invalidate i) := by
    simp only [Tas.overwrite, Tas.invalidate_data, Tas.invalidate_frame_size]
    rw [if_neg (by omega)]
  refine ⟨hov, ?_, ?_⟩
  · rw [Tas.overwrite_state_greenzone]
    exact Greenzone.invalidate_covers _ _ _ hij
  · rw [hov]
    simp [Tas.resultState, Tas.invalidate_data]

/-- Witness for C9 at a concrete state: frame_mut at index 3 of a one-frame
log aborts, and the abort state has the cache entry above 3 removed and the
log unchanged. -/
theorem frame_mut_invalidates_before_panic_witness :
    (Tas.new 1 [0]).data.length < (3 + 1) * (Tas.new 1 [0]).frame_size
    ∧ (Tas.new 1 [0]).overwrite 3 [9]
        = Except.error ((Tas.new 1 [0]).invalidate 3)
    ∧ (Tas.resultState ((Tas.new 1 [0]).overwrite 3 [9])).data
        = (Tas.new 1 [0]).data := by
  have h := frame_mut_invalidates_before_panic (Tas.new 1 [0]) 3 4 [9]
    (by decide) (by decide)
  exact ⟨by decide, h.1, h.2.2⟩

/-! ### The cursor invariant of the controller -/

/-- The central cursor invariant: the engine is never more than one frame
ahead of the view. -/
def Inv (t : Tas) : Prop := t.next_emulator_frame ≤ t.playback_cursor + 1

theorem Inv_new (size : Nat) (defaultRec : List Nat) :
    Inv (Tas.new size defaultRec) := by
  rw [Inv]
  simp [Tas.new]

/-- Running one guest frame establishes the invariant outright: the view
cursor is pulled up to one behind the engine whenever it trails further. -/
theorem Inv_run_guest_frame (t : Tas) : Inv t.run_guest_frame := by
  rw [Inv]
  simp only [Tas.run_guest_frame]
  split
  · next h => simp only; omega
  · next h => simp only; omega

theorem Inv_invalidate (t : Tas) (i : Nat) (h : Inv t) : Inv (t.invalidate i) := by
  rw [Inv] at h ⊢
  rw [Tas.invalidate]
  split
  · next hlt =>
    show ((t.greenzone.invalidate i).restore i).1 ≤ t.playback_cursor + 1
    have hr := Greenzone.restore_fst_le (t.greenzone.invalidate i) i
    omega
  · next =>
    show t.next_emulator_frame ≤ t.playback_cursor + 1
    exact h

theorem Inv_seek_to (t : Tas) (f : Nat) : Inv (t.seek_to f) := by
  rw [Inv]
  show (t.greenzone.restore f).1 ≤ f + 1
  have hr := Greenzone.restore_fst_le t.greenzone f
  omega

theorem Inv_overwrite (t : Tas) (i : Nat) (b : List Nat) (h : Inv t) :
    Inv (Tas.resultState (t.overwrite i b)) := by
  have hi := Inv_invalidate t i h
  rw [Tas.overwrite]
  split
  · split
    · exact hi
    · exact hi
  · exact hi

theorem Inv_insert (t : Tas) (i : Nat) (b : List Nat) (h : Inv t) :
    Inv (Tas.resultState (t.insert i b)) := by
  have hi := Inv_invalidate t i h
  rw [Tas.insert]
  split
  · exact h
  · split
    · exact hi
    · exact hi

theorem Inv_catch_up (n : Nat) (t : Tas) (h : Inv t) : Inv (Tas.catch_up n t) := by
  induction n generalizing t with
  | zero => exact h
  | succ k ih =>
    rw [Tas.catch_up]
    split
    · exact ih _ (Inv_run_guest_frame t)
    · exact h

theorem Inv_record_step (t : Tas) (rm : RecordMode) (h : Inv t) :
    Inv (Tas.resultState (t.record_step rm)) := by
  cases rm with
  | ReadOnly => exact h
  | Insert d =>
    simp only [Tas.record_step]
    split
    · exact Inv_insert t _ d h
    · exact h
  | Overwrite d =>
    simp only [Tas.record_step]
    split
    · exact Inv_overwrite t _ d h
    · exact h

theorem Inv_run_loop (n : Nat) (stop : Option Nat) (rm : RecordMode) (t : Tas)
    (h : Inv t) : Inv (Tas.resultState (Tas.run_loop n stop rm t)) := by
  induction n generalizing t with
  | zero => exact h
  | succ k ih =>
    rw [Tas.run_loop]
    split
    · split
      · exact h
      · have hrs := Inv_record_step t rm h
        split
        · next t1 heq => rw [heq] at hrs; exact hrs
        · next t1 heq =>
          rw [heq] at hrs
          split
          · exact ih _ (Inv_run_guest_frame t1)
          · exact hrs
    · exact h

theorem Inv_host_body (t : Tas) (h : Inv t) :
    Inv (Tas.resultState (Tas.host_body t)) := by
  have h1 : Inv (Tas.catch_up 3 t) := Inv_catch_up 3 t h
  rw [Tas.host_body]
  split
  · exact h1
  · split
    · exact h1
    · next stop rm heq =>
      have h2 := Inv_run_loop 3 stop rm
        { Tas.catch_up 3 t with run_mode := RunMode.Paused } h1
      split
      · next t2 heq2 => rw [heq2] at h2; exact h2
      · next t2 heq2 => rw [heq2] at h2; exact h2

theorem Inv_run_host_frame (t : Tas) (e : ℚ) (h : Inv t) :
    Inv (Tas.resultState (t.run_host_frame e)) := by
  rw [Tas.run_host_frame]
  exact Inv_host_body _ h

theorem Inv_select_next (t : Tas) (n : Nat) (h : Inv t) : Inv (t.select_next n) := by
  rw [Inv] at h ⊢
  simp only [Tas.select_next]
  split
  · simp [Tas.seek_to]
    have hr := Greenzone.restore_fst_le t.greenzone
      (t.playback_cursor + min n (t.movie_len - (t.selected_frame + 1)))
    omega
  · exact h

theorem Inv_select_prev (t : Tas) (n : Nat) (h : Inv t) : Inv (t.select_prev n) := by
  rw [Inv] at h ⊢
  simp only [Tas.select_prev]
  split
  · simp [Tas.seek_to]
    have hr := Greenzone.restore_fst_le t.greenzone
      (t.playback_cursor - min n t.selected_frame)
    omega
  · exact h

/-- States reachable from session construction through the public operations
of the controller (run_guest_frame, run_host_frame, seek_to, invalidate,
frame_mut with its in-place write, insert, select_next, select_prev,
set_run_mode, toggle_playback), where fallible operations contribute the
state they leave behind whatever the outcome. -/
inductive Reachable : Tas → Prop where
  | new (size : Nat) (defaultRec : List Nat) : Reachable (Tas.new size defaultRec)
  | guest {t : Tas} : Reachable t → Reachable t.run_guest_frame
  | host {t : Tas} (e : ℚ) : Reachable t →
      Reachable (Tas.resultState (t.run_host_frame e))
  | seek {t : Tas} (f : Nat) : Reachable t → Reachable (t.seek_to f)
  | inval {t : Tas} (i : Nat) : Reachable t → Reachable (t.invalidate i)
  | frame_edit {t : Tas} (i : Nat) (b : List Nat) : Reachable t →
      Reachable (Tas.resultState (t.overwrite i b))
  | ins {t : Tas} (i : Nat) (b : List Nat) : Reachable t →
      Reachable (Tas.resultState (t.insert i b))
  | next {t : Tas} (n : Nat) : Reachable t → Reachable (t.select_next n)
  | prev {t : Tas} (n : Nat) : Reachable t → Reachable (t.select_prev n)
  | mode {t : Tas} (m : RunMode) : Reachable t → Reachable (t.set_run_mode m)
  | toggle {t : Tas} : Reachable t → Reachable t.toggle_playback

/-- C8: in every state reachable through the public operations,
next_emulator_frame (simulated_frames) is at most playback_cursor
(view_cursor) plus one — the invariant behind the recording-precondition
assertion of the run phase. -/
theorem reachable_engine_at_most_one_ahead (t : Tas) (h : Reachable t) :
    t.next_emulator_frame ≤ t.playback_cursor + 1 := by
  induction h with
  | new size d => exact Inv_new size d
  | guest _ _ => exact Inv_run_guest_frame _
  | host e _ ih => exact Inv_run_host_frame _ e ih
  | seek f _ _ => exact Inv_seek_to _ f
  | inval i _ ih => exact Inv_invalidate _ i ih
  | frame_edit i b _ ih => exact Inv_overwrite _ i b ih
  | ins i b _ ih => exact Inv_insert _ i b ih
  | next n _ ih => exact Inv_select_next _ n ih
  | prev n _ ih => exact Inv_select_prev _ n ih
  | mode m _ ih => exact ih
  | toggle _ ih => exact ih

/-- Witness for C8 at a concrete reachable state: after a seek to frame 7
from a fresh session and one catch-up tick, the engine is at most one frame
ahead of the view. -/
theorem reachable_engine_at_most_one_ahead_witness :
    (Tas.resultState (((Tas.new 1 [0]).seek_to 7).run_host_frame 7)).next_emulator_frame
      ≤ (Tas.resultState (((Tas.new 1 [0]).seek_to 7).run_host_frame 7)).playback_cursor
        + 1 :=
  reachable_engine_at_most_one_ahead _
    (Reachable.host 7 (Reachable.seek 7 (Reachable.new 1 [0])))

/-! ### Pacing, stop_at and the run phase -/

/-- A session running in ReadOnly mode with stop_at = 5, the view at frame 5
and the engine caught up one frame ahead. -/
def tC1 : Tas := { Tas.new 1 [0] with
  data := List.replicate 10 0
  playback_cursor := 5
  next_emulator_frame := 6
  run_mode := RunMode.Running (some 5) RecordMode.ReadOnly }

/-- C1: in a tick whose run phase hits the stop_at bound, the run loop does
assign Paused and break, but run_host_frame then writes the pre-tick run
mode back unconditionally (the restore after the mem::replace), so after the
call run_mode is still the original Running mode, not Paused — the
transition the spec describes is lost.  Progress does stop at the bound: the
cursors are unchanged. -/
theorem stop_at_pause_is_clobbered :
    (Tas.resultState (tC1.run_host_frame 2)).run_mode
      = RunMode.Running (some 5) RecordMode.ReadOnly
    ∧ ¬ (Tas.resultState (tC1.run_host_frame 2)).run_mode = RunMode.Paused
    ∧ (Tas.resultState (tC1.run_host_frame 2)).playback_cursor = 5
    ∧ (Tas.resultState (tC1.run_host_frame 2)).next_emulator_frame = 6 := by
  norm_num [Tas.run_host_frame, Tas.host_body, Tas.catch_up, Tas.run_guest_frame,
    Tas.seek_to, Tas.frameBytes, clampFrac, Tas.resultState, tC1, Tas.new,
    Greenzone.new, Greenzone.save, Greenzone.restore, maxEntry, Core.init,
    Core.run_frame, Core.save_state, Core.restore_state, Tas.movie_len, stopHit,
    Tas.run_loop, Tas.record_step]
  decide

/-- A fresh session whose log holds ten default frames. -/
def tC2 : Tas := { Tas.new 1 [0] with data := List.replicate 10 0 }

/-- C2 counterexample: from the initial state with a log of 10 default
frames, seek_to(7) followed by one catch-up tick with 7 steps of accumulated
real time leaves simulated_frames at 2, not 8 — the fraction clamp caps each
tick at 2 whole steps. -/
theorem seek_catch_up_counterexample :
    (Tas.resultState ((tC2.seek_to 7).run_host_frame 7)).playback_cursor = 7
    ∧ (Tas.resultState ((tC2.seek_to 7).run_host_frame 7)).next_emulator_frame = 2
    ∧ ¬ (Tas.resultState ((tC2.seek_to 7).run_host_frame 7)).next_emulator_frame
          = 8 := by
  norm_num [Tas.run_host_frame, Tas.host_body, Tas.catch_up, Tas.run_guest_frame,
    Tas.seek_to, Tas.frameBytes, clampFrac, Tas.resultState, tC2, Tas.new,
    Greenzone.new, Greenzone.save, Greenzone.restore, maxEntry, Core.init,
    Core.run_frame, Core.save_state, Core.restore_state, Tas.movie_len, stopHit,
    Tas.run_loop, Tas.record_step]

/-- The fraction clamp saturates at 2 whole steps. -/
theorem clampFrac_of_two_le (x : ℚ) (h : 2 ≤ x) : clampFrac x = 2 := by
  rw [clampFrac, if_neg (by linarith)]
  by_cases h2 : 2 < x
  · rw [if_pos h2]
  · rw [if_neg h2]
    linarith

/-- With an empty backlog, a tick given at least 2 steps of elapsed time
behaves exactly as a tick whose clamped budget is 2. -/
theorem run_host_frame_of_two_le (t : Tas) (e : ℚ)
    (hf : t.core_frame_fraction = 0) (he : 2 ≤ e) :
    t.run_host_frame e = Tas.host_body { t with core_frame_fraction := 2 } := by
  have hc : clampFrac (t.core_frame_fraction + e) = 2 := by
    rw [hf, zero_add]
    exact clampFrac_of_two_le e he
  rw [Tas.run_host_frame, hc]

/-- One tick with 2 whole steps of elapsed real time. -/
def tickTwo (t : Tas) : Tas := Tas.resultState (t.run_host_frame 2)

/-- C2 amended: from the initial state with a log of 10 default frames,
after seek_to(7) a single catch-up tick with enough accumulated real time
(at least 2 steps — the accumulator is clamped to 2 whole steps of backlog)
leaves view_cursor at 7 and simulated_frames at 2; four such ticks are
needed before simulated_frames reaches 8. -/
theorem seek_catch_up_clamped (e : ℚ) (he : 2 ≤ e) :
    (Tas.resultState ((tC2.seek_to 7).run_host_frame e)).playback_cursor = 7
    ∧ (Tas.resultState ((tC2.seek_to 7).run_host_frame e)).next_emulator_frame = 2
    ∧ (tickTwo (tickTwo (tickTwo
        (Tas.resultState ((tC2.seek_to 7).run_host_frame e))))).playback_cursor = 7
    ∧ (tickTwo (tickTwo (tickTwo
        (Tas.resultState ((tC2.seek_to 7).run_host_frame e))))).next_emulator_frame
        = 8 := by
  have h1 := run_host_frame_of_two_le (tC2.seek_to 7) e rfl he
  rw [h1]
  norm_num [tickTwo, Tas.run_host_frame, Tas.host_body, Tas.catch_up,
    Tas.run_guest_frame, Tas.seek_to, Tas.frameBytes, clampFrac, Tas.resultState,
    tC2, Tas.new, Greenzone.new, Greenzone.save, Greenzone.restore, maxEntry,
    Core.init, Core.run_frame, Core.save_state, Core.restore_state, Tas.movie_len,
    stopHit, Tas.run_loop, Tas.record_step]

/-- Witness for the amended C2 at the concrete elapsed budget of the
original scenario (7 steps of accumulated real time). -/
theorem seek_catch_up_clamped_witness :
    (2 : ℚ) ≤ 7
    ∧ (Tas.resultState ((tC2.seek_to 7).run_host_frame 7)).next_emulator_frame = 2
    ∧ (tickTwo (tickTwo (tickTwo
        (Tas.resultState ((tC2.seek_to 7).run_host_frame 7))))).next_emulator_frame
        = 8 := by
  have h := seek_catch_up_clamped 7 (by decide)
  exact ⟨by decide, h.2.1, h.2.2.2⟩

/-- A session running in ReadOnly mode with stop_at far beyond the ten-frame
log, caught up at the last frame. -/
def tC5 : Tas := { Tas.new 1 [0] with
  data := List.replicate 10 0
  playback_cursor := 9
  next_emulator_frame := 10
  run_mode := RunMode.Running (some 1000) RecordMode.ReadOnly }

/-- C5 counterexample: a stop_at of 1000 on a ten-frame log is not clamped —
after one running ReadOnly tick the view cursor is 11, past the last valid
frame index 9, and the stored stop bound is still the raw 1000. -/
theorem stop_at_not_clamped_counterexample :
    tC5.movie_len = 10
    ∧ (Tas.resultState (tC5.run_host_frame 2)).playback_cursor = 11
    ∧ ¬ ((Tas.resultState (tC5.run_host_frame 2)).playback_cursor + 1
          ≤ tC5.movie_len)
    ∧ (Tas.resultState (tC5.run_host_frame 2)).run_mode
        = RunMode.Running (some 1000) RecordMode.ReadOnly := by
  norm_num [Tas.run_host_frame, Tas.host_body, Tas.catch_up, Tas.run_guest_frame,
    Tas.seek_to, Tas.frameBytes, clampFrac, Tas.resultState, tC5, Tas.new,
    Greenzone.new, Greenzone.save, Greenzone.restore, maxEntry, Core.init,
    Core.run_frame, Core.save_state, Core.restore_state, Tas.movie_len, stopHit,
    Tas.run_loop, Tas.record_step]

/-- C5 amended: a stop_at beyond the log length is not clamped — the
controller stores the requested run mode verbatim and the run loop compares
the cursor against the raw bound, so a running ReadOnly tick with such a
stop_at can advance the view cursor past the end of the log instead of
pinning it to a valid frame. -/
theorem stop_at_not_clamped (t : Tas) (m : RunMode) :
    (t.set_run_mode m).run_mode = m
    ∧ tC5.movie_len ≤ (Tas.resultState (tC5.run_host_frame 2)).playback_cursor := by
  refine ⟨rfl, ?_⟩
  norm_num [Tas.run_host_frame, Tas.host_body, Tas.catch_up, Tas.run_guest_frame,
    Tas.seek_to, Tas.frameBytes, clampFrac, Tas.resultState, tC5, Tas.new,
    Greenzone.new, Greenzone.save, Greenzone.restore, maxEntry, Core.init,
    Core.run_frame, Core.save_state, Core.restore_state, Tas.movie_len, stopHit,
    Tas.run_loop, Tas.record_step]

/-- A locked session whose engine is far ahead of the view, with the
selection on the last of ten frames. -/
def tC10 : Tas := { Tas.new 1 [0] with
  data := List.replicate 10 0
  next_emulator_frame := 11
  selected_frame := 9 }

/-- C10: with the selection locked, run_guest_frame advances selected_frame
by exactly the delta of playback_cursor with no upper clamp — so a catch-up
burst can push selected_frame past the last frame of the log, unlike
select_next, which clamps the selection to the log length. -/
theorem catch_up_burst_moves_selection_unclamped (t : Tas) (n : Nat)
    (hl : t.selection_locked = true) :
    t.run_guest_frame.selected_frame
      = t.selected_frame + (t.run_guest_frame.playback_cursor - t.playback_cursor)
    ∧ (t.selected_frame + 1 ≤ t.movie_len →
        (t.select_next n).selected_frame + 1 ≤ t.movie_len)
    ∧ tC10.movie_len ≤ tC10.run_guest_frame.selected_frame := by
  refine ⟨?_, ?_, by decide⟩
  · simp only [Tas.run_guest_frame]
    split
    · next h => simp [hl]
    · next h => simp
  · intro hs
    simp only [Tas.select_next]
    split <;> (first | omega | (simp [Tas.seek_to]; omega))

/-- Witness for C10 at a concrete locked state: one guest frame during a
catch-up burst moves the selection by the same delta as the view cursor. -/
theorem catch_up_burst_moves_selection_unclamped_witness :
    tC10.selection_locked = true
    ∧ tC10.run_guest_frame.selected_frame
        = tC10.selected_frame
          + (tC10.run_guest_frame.playback_cursor - tC10.playback_cursor) :=
  ⟨by decide, (catch_up_burst_moves_selection_unclamped tC10 1 (by decide)).1⟩

end Mvi
